import Mathlib

/-!
# Verification of the state-machine examples of the design-patterns repository

This file gives a shallow embedding, in Lean 4, of the "State" pattern examples
of the repository (the classic light switch, the handmade phone-call machine,
and the switch-based combination lock), together with the generic table-driven
finite-state-machine engine that the design document abstracts from them
(StateTable / Machine, with `Build`, `TransitionsFrom`, `Resolve`, `Fire`,
`IsTerminal`).  The engine itself does not occur in the Go sources — only the
raw `rules` map and driver loops do — so the engine definitions are modelled
from the specification text, while the tables, the driver loops, the lock and
the light switch are translated from the Go sources.
-/

set_option autoImplicit false

namespace FSM

/-- Modelled from the spec: the error taxonomy of §7.  `ErrUndefinedState` is a
construction-time error (a transition references a destination state not
declared in the table), `ErrUnknownState` a Machine-construction error, and
`ErrNoSuchTransition` the recoverable run-time rejection, carrying the
offending (state, trigger) pair so that the error is descriptive. -/
inductive FsmError (σ τ : Type) where
  | ErrUndefinedState : FsmError σ τ
  | ErrUnknownState : FsmError σ τ
  | ErrNoSuchTransition (s : σ) (t : τ) : FsmError σ τ
deriving DecidableEq

/-- Modelled from the spec: a Transition is a (trigger, destination-state)
tuple scoped under a source state (§3). -/
structure Transition (σ τ : Type) where
  trigger : τ
  dest : σ
deriving DecidableEq

/-- Modelled from the spec: the construction input of `Build` — a mapping from
State to the ordered list of Transitions legal from that state (§4.1, §6).
Represented as an ordered association list so that both the key set and the
declaration order are explicit. -/
abbrev RuleSet (σ τ : Type) := List (σ × List (Transition σ τ))

/-- The states that appear as keys of a rule set. -/
def keyList {σ τ : Type} (rs : RuleSet σ τ) : List σ :=
  rs.map Prod.fst

/-- All destination states referenced by some transition of a rule set. -/
def destList {σ τ : Type} (rs : RuleSet σ τ) : List σ :=
  (rs.map (fun p => p.2.map Transition.dest)).flatten

/-- Modelled from the spec: a StateTable holds, for each state, the ordered
list of (trigger, destination) pairs legal from that state; immutable after
construction (§3, §4.1). -/
structure StateTable (σ τ : Type) where
  rules : RuleSet σ τ
deriving DecidableEq

/-- Modelled from the spec: `Build(rules)` validates that every destination
state referenced must also appear as a key of the table, failing with
`ErrUndefinedState` otherwise (§4.1). -/
def build {σ τ : Type} [DecidableEq σ] (rs : RuleSet σ τ) :
    Except (FsmError σ τ) (StateTable σ τ) :=
  if ∀ d ∈ destList rs, d ∈ keyList rs then
    Except.ok ⟨rs⟩
  else
    Except.error FsmError.ErrUndefinedState

/-- First-key lookup in the association list; a state that is not a key has
the empty transition list (mirroring a Go map lookup that yields the zero
value for a missing key). -/
def lookupRules {σ τ : Type} [DecidableEq σ] (s : σ) :
    RuleSet σ τ → List (Transition σ τ)
  | [] => []
  | (k, v) :: rest => if k = s then v else lookupRules s rest

/-- Modelled from the spec: `TransitionsFrom(state)` — the (trigger,
destination) pairs declared for `state`, empty (not an error) for a state with
no outgoing transitions (§4.1). -/
def transitionsFrom {σ τ : Type} [DecidableEq σ] (tbl : StateTable σ τ) (s : σ) :
    List (Transition σ τ) :=
  lookupRules s tbl.rules

/-- Modelled from the spec: `IsTerminal(state)` — true if
`TransitionsFrom(state)` is empty (§4.2). -/
def isTerminal {σ τ : Type} [DecidableEq σ] (tbl : StateTable σ τ) (s : σ) : Bool :=
  (transitionsFrom tbl s).isEmpty

/-- The slice scan underlying `Resolve`: the first transition of the list
whose trigger matches, in declaration order. -/
def scanFirst {σ τ : Type} [DecidableEq τ] (t : τ) :
    List (Transition σ τ) → Option σ
  | [] => none
  | tr :: rest => if tr.trigger = t then some tr.dest else scanFirst t rest

/-- Modelled from the spec: `Resolve(state, trigger)` — the destination state
of the first matching transition in declaration order, or `ErrNoSuchTransition`
if none matches; a pure function (§4.1). -/
def resolve {σ τ : Type} [DecidableEq σ] [DecidableEq τ]
    (tbl : StateTable σ τ) (s : σ) (t : τ) : Except (FsmError σ τ) σ :=
  match scanFirst t (transitionsFrom tbl s) with
  | some d => Except.ok d
  | none => Except.error (FsmError.ErrNoSuchTransition s t)

/-- Modelled from the spec: a Machine is the mutable pair of a current state
and a reference to a StateTable (§3). -/
structure Machine (σ τ : Type) where
  table : StateTable σ τ
  currentState : σ
deriving DecidableEq

/-- Modelled from the spec: `New(table, initialState)` fails with
`ErrUnknownState` if the initial state is not present in the table (§4.2). -/
def newMachine {σ τ : Type} [DecidableEq σ] (tbl : StateTable σ τ) (init : σ) :
    Except (FsmError σ τ) (Machine σ τ) :=
  if init ∈ keyList tbl.rules then
    Except.ok ⟨tbl, init⟩
  else
    Except.error FsmError.ErrUnknownState

/-- Modelled from the spec: `Fire(trigger)` looks up
`Resolve(currentState, trigger)`; on success it mutates `currentState` to the
destination and returns the new state plus `true`; on failure it does not
mutate state and returns the unchanged state plus `false` and the descriptive
error (§4.2).  The first component is the post-call Machine (the mutated
receiver), the rest are the returned values. -/
def fire {σ τ : Type} [DecidableEq σ] [DecidableEq τ] (m : Machine σ τ) (t : τ) :
    Machine σ τ × σ × Bool × Option (FsmError σ τ) :=
  match resolve m.table m.currentState t with
  | Except.ok d => ({ m with currentState := d }, d, true, none)
  | Except.error e => (m, m.currentState, false, some e)

/-- Modelled from the spec: `CurrentState()` — pure accessor (§4.2). -/
def currentState {σ τ : Type} (m : Machine σ τ) : σ :=
  m.currentState

/-- Outcome of a call as seen by the caller: either an ordinary returned
value, or abnormal (panicking) control flow.  Panics are modelled by the
distinguished `panicked` constructor; a function that never produces it never
panics. -/
inductive Control (α : Type) where
  | value (a : α) : Control α
  | panicked : Control α
deriving DecidableEq

/-- Modelled from the spec: the trigger-handling step of `Fire` with its
control flow made explicit.  Both branches — transition found, and no such
transition — return an ordinary result value (§7: rejections are "returned as
a normal result", never thrown/panicking control flow). -/
def fireCtl {σ τ : Type} [DecidableEq σ] [DecidableEq τ] (m : Machine σ τ) (t : τ) :
    Control (Machine σ τ × σ × Bool × Option (FsmError σ τ)) :=
  match resolve m.table m.currentState t with
  | Except.ok d => Control.value ({ m with currentState := d }, d, true, none)
  | Except.error e => Control.value (m, m.currentState, false, some e)

end FSM

namespace Phone

/-- Go: `type State int`; the five constants are declared with `iota`. -/
abbrev State := Int

def OffHook : State := 0

def Connecting : State := 1

def Connected : State := 2

def OnHold : State := 3

def OnHook : State := 4

/-- Go: `type Trigger int`; the six constants are declared with `iota`. -/
abbrev Trigger := Int

def CallDialed : Trigger := 0

def HungUp : Trigger := 1

def CallConnected : Trigger := 2

def PlacedOnHold : Trigger := 3

def TakenOffHold : Trigger := 4

def LeftMessage : Trigger := 5

/-- Go: `type TriggerResult struct { Trigger Trigger; State State }` — the
combination of a trigger and the state transitioned to when it happens. -/
structure TriggerResult where
  trigger : Trigger
  state : State
deriving DecidableEq

/-- Go: `var rules = map[State][]TriggerResult{...}`.  A Go map lookup on a
missing key yields the zero value, so every state other than the four explicit
keys has the empty transition slice. -/
def rules (s : State) : List TriggerResult :=
  if s = OffHook then
    [⟨CallDialed, Connecting⟩]
  else if s = Connecting then
    [⟨HungUp, OnHook⟩, ⟨CallConnected, Connected⟩]
  else if s = Connected then
    [⟨LeftMessage, OnHook⟩, ⟨HungUp, OnHook⟩, ⟨PlacedOnHold, OnHold⟩]
  else if s = OnHold then
    [⟨TakenOffHold, Connected⟩, ⟨HungUp, OnHook⟩]
  else
    []

/-- The five declared `State` constants of the phone example. -/
def phoneStates : List State :=
  [OffHook, Connecting, Connected, OnHold, OnHook]

/-- The driver loop of `main`: a do-while loop (`for ok := true; ok;
ok = state != exitState`) whose body prints the menu, reads an index `i` from
standard input, and performs `tr := rules[state][i]; state = tr.State`; the
loop exits when the assigned state equals `exitState = OnHook`.  The inputs
are the successive parsed indices; `none` models a blocked read (input
exhausted) or an out-of-range index (a Go slice-index panic). -/
def run (s : State) : List Nat → Option State
  | [] => none
  | i :: rest =>
    match (rules s).get? i with
    | none => none
    | some tr => if tr.state = OnHook then some tr.state else run tr.state rest

/-- The same table handed to the generic engine, with the terminal state
`OnHook` listed explicitly with an empty transition list (the form the spec's
`Build` validation accepts: every destination appears as a key). -/
def phoneRuleSet : FSM.RuleSet State Trigger :=
  [(OffHook, [⟨CallDialed, Connecting⟩]),
   (Connecting, [⟨HungUp, OnHook⟩, ⟨CallConnected, Connected⟩]),
   (Connected, [⟨LeftMessage, OnHook⟩, ⟨HungUp, OnHook⟩, ⟨PlacedOnHold, OnHold⟩]),
   (OnHold, [⟨TakenOffHold, Connected⟩, ⟨HungUp, OnHook⟩]),
   (OnHook, [])]

def phoneTable : FSM.StateTable State Trigger :=
  ⟨phoneRuleSet⟩

end Phone

namespace Lock

/-- Go: `type State int` with `Locked`, `Failed`, `Unlocked` declared via
`iota`; modelled as an inductive since only these three values are ever
assigned. -/
inductive LState where
  | Locked : LState
  | Failed : LState
  | Unlocked : LState
deriving DecidableEq

/-- Go: `code := "1234"`, as a list of runes. -/
def lockCode : List Char :=
  ['1', '2', '3', '4']

/-- `startsWith c e` is `strings.Index(c.String(), e.String()) == 0`: the
accumulated entry `e` occurs at position 0 of the code `c`. -/
def startsWith : List Char → List Char → Bool
  | _, [] => true
  | [], _ :: _ => false
  | c :: cs, e :: es => e == c && startsWith cs es

/-- A configuration of the combination-lock loop of `main`: the `state`
variable, the accumulated `entry` builder, and the remaining standard-input
runes. -/
abbrev Config := LState × List Char × List Char

/-- One iteration of the `for { switch state { ... } }` loop of `main`.
`Locked` reads one rune, appends it to `entry`, moves to `Unlocked` when the
entry equals the code, to `Failed` when the code does not start with the
entry, and otherwise stays `Locked`; `Failed` prints, resets the entry and
moves back to `Locked` without reading any input; `Unlocked` prints and
returns from `main`.  `none` models a blocked read (`Locked` with the input
exhausted) or program exit (`Unlocked`). -/
def lockStep : LState → List Char → List Char → Option Config
  | LState.Locked, _, [] => none
  | LState.Locked, entry, r :: rest =>
    let e := entry ++ [r]
    if e = lockCode then some (LState.Unlocked, e, rest)
    else if startsWith lockCode e then some (LState.Locked, e, rest)
    else some (LState.Failed, e, rest)
  | LState.Failed, _, input => some (LState.Locked, [], input)
  | LState.Unlocked, _, _ => none

/-- The step relation of the lock loop on configurations. -/
def LockStepRel (c c' : Config) : Prop :=
  lockStep c.1 c.2.1 c.2.2 = some c'

/-- Reachability in zero or more loop iterations. -/
def Reaches (c c' : Config) : Prop :=
  Relation.ReflTransGen LockStepRel c c'

/-- The loop invariant of the combination-lock `main`: whenever the `state`
variable holds `Locked` at the top of the loop, the accumulated entry starts
the code without being all of it (a strict partial entry), and whenever it
holds `Unlocked` the accumulated entry is exactly the code. -/
def LockInv (c : Config) : Prop :=
  (c.1 = LState.Locked →
    startsWith lockCode c.2.1 = true ∧ c.2.1 ≠ lockCode) ∧
  (c.1 = LState.Unlocked → c.2.1 = lockCode)

end Lock

namespace Light

/-- The two concrete implementers of the Go `State` interface: `OnState` and
`OffState` (each embedding `BaseState`, which carries no data). -/
inductive LightState where
  | OnState : LightState
  | OffState : LightState
deriving DecidableEq

/-- Go: `type Switch struct { State State }`. -/
structure Switch where
  state : LightState
deriving DecidableEq

/-- Go: `func (b BaseState) On(sw *Switch)` — prints only, does not assign to
the State field.  The result is the (unchanged) switch plus the printed
lines. -/
def baseStateOn (sw : Switch) : Switch × List String :=
  (sw, ["Light is already on"])

/-- Go: `func (b BaseState) Off(sw *Switch)` — prints only, does not assign
to the State field. -/
def baseStateOff (sw : Switch) : Switch × List String :=
  (sw, ["Light is already off"])

/-- Go: `func (o *OnState) Off(sw *Switch)` — prints, then
`sw.State = NewOffState()` (whose constructor prints as well). -/
def onStateOff (sw : Switch) : Switch × List String :=
  ({ sw with state := LightState.OffState },
   ["Turning the light off...", "Light is turned off"])

/-- Go: `func (o *OffState) On(sw *Switch)` — prints, then
`sw.State = NewOnState()` (whose constructor prints as well). -/
def offStateOn (sw : Switch) : Switch × List String :=
  ({ sw with state := LightState.OnState },
   ["Turning the light on...", "Light turned on"])

/-- Dynamic dispatch of the interface method `On`: `OffState` overrides it;
`OnState` has no `On` method of its own, so the call falls through to the
embedded `BaseState.On`. -/
def stateOn : LightState → Switch → Switch × List String
  | LightState.OnState => baseStateOn
  | LightState.OffState => offStateOn

/-- Dynamic dispatch of the interface method `Off`: `OnState` overrides it;
`OffState` has no `Off` method of its own, so the call falls through to the
embedded `BaseState.Off`. -/
def stateOff : LightState → Switch → Switch × List String
  | LightState.OnState => onStateOff
  | LightState.OffState => baseStateOff

/-- Go: `func (s *Switch) On() { s.State.On(s) }` — the double dispatch on
the current value of the State field. -/
def switchOn (sw : Switch) : Switch × List String :=
  stateOn sw.state sw

/-- Go: `func (s *Switch) Off() { s.State.Off(s) }`. -/
def switchOff (sw : Switch) : Switch × List String :=
  stateOff sw.state sw

end Light


namespace FSM

theorem scanFirst_eq_none {σ τ : Type} [DecidableEq τ] (t : τ)
    (l : List (Transition σ τ)) (h : ∀ x ∈ l, x.trigger ≠ t) :
    scanFirst t l = none := by
  induction l with
  | nil => rfl
  | cons x xs ih =>
    simp only [scanFirst, if_neg (h x (List.mem_cons_self x xs))]
    exact ih fun y hy => h y (List.mem_cons_of_mem x hy)

theorem scanFirst_append_match {σ τ : Type} [DecidableEq τ] (t : τ)
    (pre : List (Transition σ τ)) (tr : Transition σ τ)
    (rest : List (Transition σ τ)) (hmatch : tr.trigger = t)
    (hpre : ∀ x ∈ pre, x.trigger ≠ t) :
    scanFirst t (pre ++ tr :: rest) = some tr.dest := by
  induction pre with
  | nil => simp [scanFirst, hmatch]
  | cons x xs ih =>
    simp only [List.cons_append, scanFirst,
      if_neg (hpre x (List.mem_cons_self x xs))]
    exact ih fun y hy => hpre y (List.mem_cons_of_mem x hy)

/-- C1: when `Fire` is called with a trigger that has no transition defined
from the current state, the current state is unchanged after the call, and
`Fire` returns the unchanged state together with `false` and the descriptive
error naming the offending (state, trigger) pair. -/
theorem fire_rejection_preserves_state {σ τ : Type} [DecidableEq σ]
    [DecidableEq τ] (m : Machine σ τ) (t : τ)
    (h : ∀ x ∈ transitionsFrom m.table m.currentState, x.trigger ≠ t) :
    fire m t = (m, m.currentState, false,
      some (FsmError.ErrNoSuchTransition m.currentState t)) := by
  simp [fire, resolve, scanFirst_eq_none t _ h]

/-- Witness for C1: firing `CallDialed` from `Connecting` on the phone table
is rejected with the machine state unchanged. -/
theorem fire_rejection_preserves_state_witness :
    fire (⟨Phone.phoneTable, Phone.Connecting⟩ : Machine Int Int)
        Phone.CallDialed =
      (⟨Phone.phoneTable, Phone.Connecting⟩, Phone.Connecting, false,
        some (FsmError.ErrNoSuchTransition Phone.Connecting
          Phone.CallDialed)) :=
  fire_rejection_preserves_state _ _ (by decide)

/-- C2: when a transition is defined, a successful `Fire` sets the current
state to exactly the destination that `Resolve(currentState, trigger)` yields
and returns that new state together with `true`. -/
theorem fire_success_sets_resolved_destination {σ τ : Type} [DecidableEq σ]
    [DecidableEq τ] (m : Machine σ τ) (t : τ) (d : σ)
    (h : resolve m.table m.currentState t = Except.ok d) :
    fire m t = ({ m with currentState := d }, d, true, none) := by
  simp [fire, h]

/-- Witness for C2: firing `CallDialed` from `OffHook` on the phone table
succeeds and lands in `Connecting`. -/
theorem fire_success_sets_resolved_destination_witness :
    fire (⟨Phone.phoneTable, Phone.OffHook⟩ : Machine Int Int)
        Phone.CallDialed =
      (⟨Phone.phoneTable, Phone.Connecting⟩, Phone.Connecting, true, none) :=
  fire_success_sets_resolved_destination _ _ _ rfl

/-- C3: `Resolve(s, t)` returns the destination of the first transition
matching `t` in the declaration order of the transition list of `s`, and
signals `ErrNoSuchTransition` when no transition from `s` matches `t`; the
embedding of `Resolve` is a pure Lean function, hence side-effect-free and
deterministic. -/
theorem resolve_first_match_or_error {σ τ : Type} [DecidableEq σ]
    [DecidableEq τ] (tbl : StateTable σ τ) (s : σ) (t : τ) :
    (∀ pre tr rest, transitionsFrom tbl s = pre ++ tr :: rest →
      tr.trigger = t → (∀ x ∈ pre, x.trigger ≠ t) →
      resolve tbl s t = Except.ok tr.dest) ∧
    ((∀ x ∈ transitionsFrom tbl s, x.trigger ≠ t) →
      resolve tbl s t = Except.error (FsmError.ErrNoSuchTransition s t)) := by
  constructor
  · intro pre tr rest hsplit hmatch hpre
    simp [resolve, hsplit, scanFirst_append_match t pre tr rest hmatch hpre]
  · intro h
    simp [resolve, scanFirst_eq_none t _ h]

/-- Witness for C3: on the phone table, `CallConnected` from `Connecting`
resolves past the non-matching `HungUp` entry to `Connected`, and `HungUp`
from `OffHook` signals `ErrNoSuchTransition`. -/
theorem resolve_first_match_or_error_witness :
    resolve Phone.phoneTable Phone.Connecting Phone.CallConnected =
      Except.ok Phone.Connected ∧
    resolve Phone.phoneTable Phone.OffHook Phone.HungUp =
      Except.error (FsmError.ErrNoSuchTransition Phone.OffHook Phone.HungUp) :=
  ⟨(resolve_first_match_or_error Phone.phoneTable Phone.Connecting
      Phone.CallConnected).1 [⟨Phone.HungUp, Phone.OnHook⟩]
      ⟨Phone.CallConnected, Phone.Connected⟩ [] (by decide) rfl (by decide),
   (resolve_first_match_or_error Phone.phoneTable Phone.OffHook
      Phone.HungUp).2 (by decide)⟩

/-- C4: for every machine state and every run-time trigger, the
trigger-handling step of `Fire` ends in an ordinary returned result value —
never in the panicking control-flow outcome — and that value is exactly what
`fire` returns. -/
theorem fire_never_panics {σ τ : Type} [DecidableEq σ] [DecidableEq τ]
    (m : Machine σ τ) (t : τ) :
    ∃ r, fireCtl m t = Control.value r ∧ fire m t = r := by
  cases hr : resolve m.table m.currentState t with
  | ok d =>
    refine ⟨({ m with currentState := d }, d, true, none), ?_, ?_⟩ <;>
      simp [fireCtl, fire, hr]
  | error e =>
    refine ⟨(m, m.currentState, false, some e), ?_, ?_⟩ <;>
      simp [fireCtl, fire, hr]

/-- C5: construction fails with `ErrUndefinedState` whenever some
transition's destination does not appear as a key of the table, and every
successfully built table has all its destinations among its keys. -/
theorem build_rejects_undefined_destinations {σ τ : Type} [DecidableEq σ]
    (rs : RuleSet σ τ) :
    ((¬ ∀ d ∈ destList rs, d ∈ keyList rs) →
      build rs = Except.error FsmError.ErrUndefinedState) ∧
    (∀ tbl, build rs = Except.ok tbl →
      ∀ d ∈ destList tbl.rules, d ∈ keyList tbl.rules) := by
  constructor
  · intro h
    simp [build, h]
  · intro tbl htbl
    by_cases hc : ∀ d ∈ destList rs, d ∈ keyList rs
    · rw [build, if_pos hc] at htbl
      cases htbl
      exact hc
    · rw [build, if_neg hc] at htbl
      simp at htbl

/-- Witness for C5: a one-rule table whose transition points at the
undeclared state `99` fails to build, while the validated phone table keeps
every destination (in particular `OnHook = 4`) among its keys. -/
theorem build_rejects_undefined_destinations_witness :
    build [((0 : Int), [(⟨0, 99⟩ : Transition Int Int)])] =
      Except.error FsmError.ErrUndefinedState ∧
    (4 : Int) ∈ keyList Phone.phoneRuleSet :=
  ⟨(build_rejects_undefined_destinations _).1 (by decide),
   (build_rejects_undefined_destinations Phone.phoneRuleSet).2
     Phone.phoneTable rfl 4 (by decide)⟩

end FSM

namespace Phone

theorem run_exit (inputs : List Nat) :
    ∀ s s' : State, run s inputs = some s' → s' = OnHook := by
  induction inputs with
  | nil =>
    intro s s' h
    simp [run] at h
  | cons i rest ih =>
    intro s s' h
    simp only [run] at h
    cases hg : (rules s).get? i with
    | none => simp only [hg] at h; exact absurd h (by simp)
    | some tr =>
      simp only [hg] at h
      by_cases he : tr.state = OnHook
      · rw [if_pos he] at h
        injection h with h2
        exact h2 ▸ he
      · rw [if_neg he] at h
        exact ih _ _ h

/-- C6: `IsTerminal(s)` is true exactly when `TransitionsFrom(s)` is empty;
in the phone-call example `OnHook` is the one declared state with zero
outgoing transitions, the driver loop exits only with the state equal to
`OnHook`, and it stops at the very step that assigns `OnHook`. -/
theorem terminal_detection :
    (∀ (tbl : FSM.StateTable State Trigger) (s : State),
      FSM.isTerminal tbl s = true ↔ FSM.transitionsFrom tbl s = []) ∧
    (∀ s ∈ phoneStates, rules s = [] ↔ s = OnHook) ∧
    (∀ (s : State) (inputs : List Nat) (s' : State),
      run s inputs = some s' → s' = OnHook) ∧
    (∀ (s : State) (i : Nat) (rest : List Nat) (tr : TriggerResult),
      (rules s).get? i = some tr → tr.state = OnHook →
      run s (i :: rest) = some OnHook) := by
  refine ⟨?_, ?_, ?_, ?_⟩
  · intro tbl s
    rcases hl : FSM.transitionsFrom tbl s with _ | ⟨a, l⟩ <;>
      simp [FSM.isTerminal, hl]
  · decide
  · intro s inputs s' h
    exact run_exit inputs s s' h
  · intro s i rest tr hg he
    simp only [run, hg]
    rw [if_pos he, he]

/-- Witness for C6: `OnHook` is terminal in the engine table, has no rules in
the source map, and the driver loop from `Connecting` on input `0` (the
`HungUp` entry) stops in `OnHook`. -/
theorem terminal_detection_witness :
    FSM.isTerminal phoneTable OnHook = true ∧ rules OnHook = [] ∧
      run Connecting [0] = some OnHook :=
  ⟨(terminal_detection.1 phoneTable OnHook).mpr rfl,
   (terminal_detection.2.1 OnHook (by decide)).mpr rfl,
   terminal_detection.2.2.2 Connecting 0 [] ⟨HungUp, OnHook⟩ rfl rfl⟩

/-- C10: every destination assigned by the driver loop comes from the rules
table and is one of the five declared constants, and the loop, started from
`OffHook`, exits only with the state equal to `OnHook`. -/
theorem loop_states_declared_and_exits_at_OnHook :
    (∀ (s : State) (tr : TriggerResult), tr ∈ rules s →
      tr.state ∈ phoneStates) ∧
    (∀ (inputs : List Nat) (s' : State),
      run OffHook inputs = some s' → s' = OnHook) := by
  constructor
  · intro s tr h
    have hall : ∀ x ∈ rules s, x.state ∈ phoneStates := by
      unfold rules
      split_ifs <;> decide
    exact hall tr h
  · intro inputs s' h
    exact run_exit inputs OffHook s' h

/-- Witness for C10: the destination of the one rule of `OffHook` is a
declared constant, and the two-step input `[0, 0]` drives the loop from
`OffHook` through `Connecting` to the `OnHook` exit. -/
theorem loop_states_declared_and_exits_at_OnHook_witness :
    Connecting ∈ phoneStates ∧ OnHook = OnHook :=
  ⟨loop_states_declared_and_exits_at_OnHook.1 OffHook
     ⟨CallDialed, Connecting⟩ (by decide),
   loop_states_declared_and_exits_at_OnHook.2 [0, 0] OnHook (by decide)⟩

end Phone

namespace Light

/-- C9: calling `Switch.Off` when the current state is an `OffState`, or
`Switch.On` when the current state is an `OnState`, dispatches to the
embedded `BaseState` method, which only prints; the `Switch`'s `State` field
(indeed the whole `Switch`) is unchanged. -/
theorem base_state_dispatch_preserves_state (sw : Switch) :
    (sw.state = LightState.OffState → (switchOff sw).1 = sw) ∧
    (sw.state = LightState.OnState → (switchOn sw).1 = sw) := by
  constructor <;> intro h <;>
    simp [switchOff, switchOn, stateOff, stateOn, h, baseStateOff, baseStateOn]

/-- Witness for C9: turning an off switch off and an on switch on both leave
the switch unchanged. -/
theorem base_state_dispatch_preserves_state_witness :
    (switchOff ⟨LightState.OffState⟩).1 = (⟨LightState.OffState⟩ : Switch) ∧
    (switchOn ⟨LightState.OnState⟩).1 = (⟨LightState.OnState⟩ : Switch) :=
  ⟨(base_state_dispatch_preserves_state _).1 rfl,
   (base_state_dispatch_preserves_state _).2 rfl⟩

end Light

namespace Lock

theorem entry_cases (p : List Char) (h1 : startsWith lockCode p = true)
    (h2 : p ≠ lockCode) :
    p = [] ∨ p = ['1'] ∨ p = ['1', '2'] ∨ p = ['1', '2', '3'] := by
  rcases p with _ | ⟨a, _ | ⟨b, _ | ⟨c, _ | ⟨d, _ | ⟨e, tl⟩⟩⟩⟩⟩ <;>
    simp_all [startsWith, lockCode]

theorem lockStep_preserves_inv (c c' : Config) (h : LockStepRel c c') :
    LockInv c' := by
  obtain ⟨s, entry, input⟩ := c
  cases s with
  | Locked =>
    cases input with
    | nil => simp [LockStepRel, lockStep] at h
    | cons r rest =>
      simp only [LockStepRel, lockStep] at h
      split_ifs at h with h1 h2
      · injection h with h
        subst h
        exact ⟨fun hl => (nomatch hl), fun _ => h1⟩
      · injection h with h
        subst h
        exact ⟨fun _ => ⟨h2, h1⟩, fun hu => (nomatch hu)⟩
      · injection h with h
        subst h
        exact ⟨fun hl => (nomatch hl), fun hu => (nomatch hu)⟩
  | Failed =>
    simp only [LockStepRel, lockStep] at h
    injection h with h
    subst h
    exact ⟨fun _ => ⟨rfl, by simp [lockCode]⟩, fun hu => (nomatch hu)⟩
  | Unlocked => simp [LockStepRel, lockStep] at h

theorem reaches_inv (input₀ : List Char) (c : Config)
    (h : Reaches (LState.Locked, [], input₀) c) : LockInv c := by
  induction h with
  | refl => exact ⟨fun _ => ⟨rfl, by simp [lockCode]⟩, fun hu => (nomatch hu)⟩
  | tail hab hbc ih => exact lockStep_preserves_inv _ _ hbc

/-- C8: in every configuration the combination-lock loop reaches from its
initial configuration, whenever the `state` variable holds `Locked` at the
top of the loop the accumulated entry is a strict partial entry of the code
"1234" (the code starts with it and it is not the whole code — empty at start
and immediately after a `Failed` reset), and `Unlocked` is held only with the
accumulated entry exactly equal to the code. -/
theorem locked_entry_invariant (input₀ : List Char) (c : Config)
    (h : Reaches (LState.Locked, [], input₀) c) :
    (c.1 = LState.Locked →
      startsWith lockCode c.2.1 = true ∧ c.2.1 ≠ lockCode) ∧
    (c.1 = LState.Unlocked → c.2.1 = lockCode) :=
  reaches_inv input₀ c h

/-- Witness for C8: after one loop iteration consuming the correct first
digit, the state is `Locked` and the entry `"1"` is a strict partial entry of
the code. -/
theorem locked_entry_invariant_witness :
    startsWith lockCode ['1'] = true ∧ ['1'] ≠ lockCode :=
  (locked_entry_invariant ['1', '5'] (LState.Locked, ['1'], ['5'])
    (Relation.ReflTransGen.single
      (by simp [LockStepRel, lockStep, lockCode, startsWith]))).1 rfl

/-- C7 counterexample: the `Failed` case transitions back to `Locked` even
when the input stream is empty, consuming nothing — the code has no reset
trigger at all, so "Failed transitions back to Locked on a reset trigger" is
false as stated: the transition happens unconditionally, with no trigger
available to be fired. -/
theorem failed_resets_without_any_trigger :
    lockStep LState.Failed ['9'] [] = some (LState.Locked, [], []) := rfl

/-- C7 (amended): with states `{Locked, Failed, Unlocked}` and code "1234",
entering the digits 1 2 3 4 in order from `Locked` (empty entry) reaches
`Unlocked`; entering any wrong digit (one that is not the next digit of the
code) transitions to `Failed`; and `Failed` always transitions back to
`Locked` unconditionally on the next loop iteration, resetting the entry,
without consuming any trigger. -/
theorem lock_scenario :
    (∀ rest : List Char,
      Reaches (LState.Locked, [], '1' :: '2' :: '3' :: '4' :: rest)
        (LState.Unlocked, lockCode, rest)) ∧
    (∀ (p : List Char) (d : Char) (rest : List Char),
      startsWith lockCode p = true → p ≠ lockCode →
      some d ≠ lockCode.get? p.length →
      lockStep LState.Locked p (d :: rest) =
        some (LState.Failed, p ++ [d], rest)) ∧
    (∀ e input : List Char,
      lockStep LState.Failed e input = some (LState.Locked, [], input)) := by
  refine ⟨?_, ?_, ?_⟩
  · intro rest
    have s1 : LockStepRel (LState.Locked, [], '1' :: '2' :: '3' :: '4' :: rest)
        (LState.Locked, ['1'], '2' :: '3' :: '4' :: rest) := by
      simp [LockStepRel, lockStep, lockCode, startsWith]
    have s2 : LockStepRel (LState.Locked, ['1'], '2' :: '3' :: '4' :: rest)
        (LState.Locked, ['1', '2'], '3' :: '4' :: rest) := by
      simp [LockStepRel, lockStep, lockCode, startsWith]
    have s3 : LockStepRel (LState.Locked, ['1', '2'], '3' :: '4' :: rest)
        (LState.Locked, ['1', '2', '3'], '4' :: rest) := by
      simp [LockStepRel, lockStep, lockCode, startsWith]
    have s4 : LockStepRel (LState.Locked, ['1', '2', '3'], '4' :: rest)
        (LState.Unlocked, lockCode, rest) := by
      simp [LockStepRel, lockStep, lockCode, startsWith]
    exact Relation.ReflTransGen.head s1 (Relation.ReflTransGen.head s2
      (Relation.ReflTransGen.head s3 (Relation.ReflTransGen.single s4)))
  · intro p d rest h1 h2 h3
    rcases entry_cases p h1 h2 with rfl | rfl | rfl | rfl <;>
      simp_all [lockStep, lockCode, startsWith]
  · intro e input
    rfl

/-- Witness for C7 (amended): the full code from a fresh `Locked` unlocks;
the wrong digit 9 after the partial entry "1" fails; and `Failed` resets to
`Locked` leaving the input untouched. -/
theorem lock_scenario_witness :
    Reaches (LState.Locked, [], ['1', '2', '3', '4'])
      (LState.Unlocked, lockCode, []) ∧
    lockStep LState.Locked ['1'] ['9'] =
      some (LState.Failed, ['1', '9'], []) ∧
    lockStep LState.Failed ['1', '9'] ['7'] =
      some (LState.Locked, [], ['7']) :=
  ⟨lock_scenario.1 [],
   lock_scenario.2.1 ['1'] '9' [] (by decide) (by decide) (by decide),
   lock_scenario.2.2 ['1', '9'] ['7']⟩

end Lock
